import Mathlib

/-!
Shallow embedding of the retrieval-and-ranking core of `src/script.js`
(class `RAGChatSystem`) and proofs of the specification claims about it.

Modelling conventions:
* JavaScript floating-point numbers are modelled as real numbers (`ℝ`);
  integral quantities (timestamps in milliseconds, counts, HTTP status
  codes) are modelled as `ℕ`.
* The two network calls (`fetch` against the WordPress API and against the
  CORS relay) are modelled by oracle values (`PrimaryOutcome`,
  `FallbackOutcome`) describing how the environment answered; the
  functions below are the deterministic rest of the code.
* `cleanHtml` runs through the browser DOM (`document.createElement`), so
  it is kept abstract: every definition that uses it takes an arbitrary
  function `cleanHtml : String → String` as a parameter, and the theorems
  quantify over it.  Likewise `toLocaleDateString` is an abstract
  `fmtDate : String → String`.
* A thrown JavaScript exception is modelled explicitly where it can cross
  a function boundary (`SearchOutcome.fatal`); code regions whose
  `try/catch` swallows every exception are total functions here.
-/

namespace RAGChatSystem

/-- Characters matched by the JavaScript regular-expression class `\s`
(whitespace), as used by `.replace(/\s+/g, ' ')`, `.split(/\s+/)` and
`String.prototype.trim`. -/
def isJsSpace (c : Char) : Bool :=
  decide (c.toNat ∈ ([9, 10, 11, 12, 13, 32, 0xA0, 0x1680, 0x2028, 0x2029,
      0x202F, 0x205F, 0x3000, 0xFEFF] : List ℕ)) ||
    (decide (0x2000 ≤ c.toNat) && decide (c.toNat ≤ 0x200A))

/-- Characters kept by the tokenizer's character class
`[Ѐ-ӿ\w]`: the Cyrillic block plus JavaScript word characters
(ASCII letters, digits and underscore). -/
def isTokenChar (c : Char) : Bool :=
  (decide (0x400 ≤ c.toNat) && decide (c.toNat ≤ 0x4FF)) ||
    c.isAlpha || c.isDigit || c == '_'

/-- Model of `String.prototype.toLowerCase`, restricted to the Basic Latin
and Cyrillic ranges — the only characters the tokenizer keeps. -/
def jsToLower (c : Char) : Char :=
  if 0x410 ≤ c.toNat ∧ c.toNat ≤ 0x42F then Char.ofNat (c.toNat + 0x20)
  else if 0x400 ≤ c.toNat ∧ c.toNat ≤ 0x40F then Char.ofNat (c.toNat + 0x50)
  else c.toLower

/-- Splits a character list into its maximal runs of non-whitespace
characters; the composition `.replace(/\s+/g, ' ').trim().split(/\s+/)`
followed by the length filter in `preprocessText` produces exactly these
runs (the lone empty string produced by splitting an empty trimmed string
is removed by the length filter). -/
def splitWsAux : List Char → List Char → List (List Char)
  | [], acc => if acc.isEmpty then [] else [acc.reverse]
  | c :: cs, acc =>
    if isJsSpace c then
      (if acc.isEmpty then splitWsAux cs [] else acc.reverse :: splitWsAux cs [])
    else splitWsAux cs (c :: acc)

/-- Model of `RAGChatSystem.preprocessText` (src/script.js:85-90):
lower-case, replace every character outside
`[Ѐ-ӿ\w\s]` by a space, collapse and split on whitespace, and
drop tokens of length `≤ 2`.  All kept characters lie in the basic
multilingual plane, so the JavaScript UTF-16 `length` of a token equals
its character count. -/
def preprocessText (text : String) : List String :=
  let lowered := text.toList.map jsToLower
  let replaced := lowered.map fun c => if isTokenChar c || isJsSpace c then c else ' '
  ((splitWsAux replaced []).filter fun w => 2 < w.length).map fun w => String.mk w

/-- First-occurrence deduplication with the set of already seen elements
as an accumulator. -/
def firstDedupAux : List String → List String → List String
  | [], _ => []
  | x :: xs, seen =>
    if x ∈ seen then firstDedupAux xs seen else x :: firstDedupAux xs (x :: seen)

/-- First-occurrence deduplication: the order in which
`Array.from(new Set(xs))` lists the distinct elements of `xs`. -/
def firstDedup (l : List String) : List String := firstDedupAux l []

/-- Number of processed documents that contain the term `w` at least once
(the `docFreq` computation in `createTfIdfVectors`). -/
def docFreqCount (pds : List (List String)) (w : String) : ℕ :=
  (pds.filter fun d => decide (w ∈ d)).length

/-- Inverse document frequency as computed in `createTfIdfVectors`
(src/script.js:104): `Math.log(docCount / (1 + docFreq))`. -/
noncomputable def idfValue (pds : List (List String)) (w : String) : ℝ :=
  Real.log ((pds.length : ℝ) / (1 + (docFreqCount pds w : ℝ)))

/-- One vector component in `createTfIdfVectors` (src/script.js:112-117):
`tf * idf` when the word occurs in the document (`wordCount.has(word)`),
`0` otherwise, with `tf = count / words.length`. -/
noncomputable def tfidfComponent (pds : List (List String)) (words : List String)
    (w : String) : ℝ :=
  if w ∈ words then ((words.count w : ℝ) / (words.length : ℝ)) * idfValue pds w
  else 0

/-- Result record of `createTfIdfVectors`. -/
structure TfIdfResult where
  vectors : List (List ℝ)
  vocabulary : List String

/-- Model of `RAGChatSystem.createTfIdfVectors` (src/script.js:95-122).
Each document is tokenized, the vocabulary is the list of distinct tokens
in first-occurrence order (`new Set(processedDocs.flat())`), and each
document gets one vector component per vocabulary term. -/
noncomputable def createTfIdfVectors (documents : List String) : TfIdfResult :=
  let processedDocs := documents.map preprocessText
  let vocabArray := firstDedup processedDocs.flatten
  { vectors := processedDocs.map fun words =>
      vocabArray.map fun w => tfidfComponent processedDocs words w
    vocabulary := vocabArray }

/-- Sum of squares of a vector's entries: the `normA` / `normB`
accumulators of `cosineSimilarity` before the square roots are taken. -/
def sumSq (v : List ℝ) : ℝ := (v.map fun x => x * x).sum

/-- Dot-product accumulator of `cosineSimilarity`.  The JavaScript loop
runs over the indices of `vecA`; at every call site both vectors have the
same length (proved below), where this `zipWith` coincides with it. -/
def sumDot (a b : List ℝ) : ℝ := (List.zipWith (fun x y => x * y) a b).sum

/-- Model of `RAGChatSystem.cosineSimilarity` (src/script.js:127-136):
returns `0` as soon as either accumulated squared norm is `0`, otherwise
the dot product divided by the product of the Euclidean norms. -/
noncomputable def cosineSimilarity (vecA vecB : List ℝ) : ℝ :=
  if sumSq vecA = 0 ∨ sumSq vecB = 0 then 0
  else sumDot vecA vecB / (Real.sqrt (sumSq vecA) * Real.sqrt (sumSq vecB))

/-- A WordPress post as consumed by the core: the fields requested by
`_fields=id,title,content,link,excerpt,date`.  The rendered fields are
accessed as `post.title?.rendered || ''` etc., so a missing field is the
empty string here. -/
structure Post where
  id : ℕ
  titleRendered : String
  contentRendered : String
  excerptRendered : String
  link : String
  date : String
deriving Inhabited, DecidableEq, Repr

/-- One element of the `similarities` array of `rankRelevantPosts`
(src/script.js:155-159): the original position, the cosine similarity and
the post itself. -/
structure RankedItem where
  index : ℕ
  similarity : ℝ
  post : Post

/-- One element of the output of `rankRelevantPosts`: the post together
with the attached `similarity_score`. -/
structure ScoredPost where
  post : Post
  similarity_score : ℝ

/-- Stable insertion of an item into a list already sorted in descending
similarity order: the item goes in front of the first element whose
similarity is not larger. -/
noncomputable def insertDesc (x : RankedItem) : List RankedItem → List RankedItem
  | [] => [x]
  | y :: ys =>
    if y.similarity ≤ x.similarity then x :: y :: ys else y :: insertDesc x ys

/-- Model of `similarities.sort((a, b) => b.similarity - a.similarity)`
(src/script.js:161): JavaScript `Array.prototype.sort` is stable and this
comparator orders by descending similarity, so the result is the stable
descending insertion sort. -/
noncomputable def sortDescStable : List RankedItem → List RankedItem
  | [] => []
  | x :: xs => insertDesc x (sortDescStable xs)

/-- Model of `RAGChatSystem.rankRelevantPosts` (src/script.js:141-171)
before the final projection: cleans and concatenates each post's title and
content, vectorizes them together with the query, scores every post
against the query vector, sorts descending (stably), filters out
similarities `≤ 0.01` and keeps the first `topK` items.  The `try/catch`
around the body can only return `[]` on an exception; the model is total,
so no exception path exists. -/
noncomputable def rankItems (cleanHtml : String → String) (query : String)
    (posts : List Post) (topK : ℕ) : List RankedItem :=
  if posts.length = 0 then []
  else
    let postTexts := posts.map fun post =>
      cleanHtml post.titleRendered ++ " " ++ cleanHtml post.contentRendered
    let allTexts := postTexts ++ [query]
    let res := createTfIdfVectors allTexts
    let queryVector := res.vectors.getLastD []
    let docVectors := res.vectors.dropLast
    let similarities := docVectors.enum.map fun p =>
      { index := p.1, similarity := cosineSimilarity queryVector p.2
        post := posts.getD p.1 default : RankedItem }
    let sorted := sortDescStable similarities
    (sorted.filter fun item => decide ((0.01 : ℝ) < item.similarity)).take topK

/-- Model of `RAGChatSystem.rankRelevantPosts` (src/script.js:141-171):
the ranked items projected to `{ ...post, similarity_score }`. -/
noncomputable def rankRelevantPosts (cleanHtml : String → String) (query : String)
    (posts : List Post) (topK : ℕ := 5) : List ScoredPost :=
  (rankItems cleanHtml query posts topK).map fun item =>
    { post := item.post, similarity_score := item.similarity }

/-- A citation in a composed response (src/script.js:184-189). -/
structure Source where
  title : String
  link : String
  similarity : ℝ
  date : String

/-- A composed response: the answer text plus the source citations. -/
structure Response where
  answer : String
  sources : List Source

/-- Decimal digit expansion with explicit recursion depth (the depth `n`
used below always suffices, since the argument at least halves each
step). -/
def natDigitsAux : ℕ → ℕ → List Char
  | 0, n => [Char.ofNat (48 + n % 10)]
  | fuel + 1, n =>
    if n < 10 then [Char.ofNat (48 + n)]
    else natDigitsAux fuel (n / 10) ++ [Char.ofNat (48 + n % 10)]

/-- Decimal representation of a natural number, as JavaScript template
literals render a non-negative integer. -/
def natDigits (n : ℕ) : List Char := natDigitsAux n n

/-- Decimal string of a natural number. -/
def natToString (n : ℕ) : String := String.mk (natDigits n)

/-- Fixed guidance answer for too-short questions (src/script.js:215). -/
def shortQuestionAnswer : String :=
  "Моля, задайте по-конкретен въпрос (поне 3 символа)."

/-- Fixed answer when retrieval returns no posts (src/script.js:222). -/
def noMatchesAnswer : String :=
  "Не открих публикации, свързани с вашето търсене."

/-- Fixed answer of the orchestrator's catch-all handler
(src/script.js:235). -/
def techErrorAnswer : String :=
  "Възникна техническа грешка при търсенето. Моля, опитайте отново."

/-- Fixed answer when ranking yields no relevant post
(src/script.js:179). -/
def noInfoAnswer : String :=
  "За съжаление не намерих релевантна информация по този въпрос в публикациите на PostVai.com. Моля, опитайте с различни ключови думи."

/-- Model of `RAGChatSystem.generateResponse` (src/script.js:176-201).
`fmtDate` abstracts `new Date(d).toLocaleDateString('bg-BG')`; the
JavaScript truthiness tests `post.date ?`, `excerpt ||` compare against
the empty string, and `post.link || ''` and `post.similarity_score || 0`
are identities in this model (a missing field is already `''`, and `0`
maps to `0`). -/
noncomputable def generateResponse (cleanHtml fmtDate : String → String)
    (query : String) (relevantPosts : List ScoredPost) : Response :=
  if relevantPosts.length = 0 then { answer := noInfoAnswer, sources := [] }
  else
    let sources := relevantPosts.map fun p =>
      { title := cleanHtml p.post.titleRendered
        link := p.post.link
        similarity := p.similarity_score
        date := if p.post.date = "" then "" else fmtDate p.post.date : Source }
    let headParts := ["🔍 Намерих " ++ natToString relevantPosts.length ++
      " релевантни публикации, които може да отговорят на въпроса ви:"]
    let bodyParts := (relevantPosts.enum.map fun p =>
      let title := cleanHtml p.2.post.titleRendered
      let excerpt := cleanHtml p.2.post.excerptRendered
      ["\n**" ++ natToString (p.1 + 1) ++ ". " ++ title ++ "**",
       if excerpt = "" then "Няма налично резюме." else excerpt]).flatten
    let tailParts := ["\n📚 За пълна информация, моля посетете линковете към публикациите."]
    { answer := String.intercalate "\n" (headParts ++ bodyParts ++ tailParts)
      sources := sources }

/-- One entry of `this.queryCache` (src/script.js:229): a composed
response plus its creation time in milliseconds. -/
structure CacheEntry where
  response : Response
  timestamp : ℕ

/-- The query cache, a `Map` keyed by the raw question string, modelled as
an association list in insertion order. -/
def Cache : Type := List (String × CacheEntry)

/-- Model of `Map.prototype.get`. -/
def cacheGet : Cache → String → Option CacheEntry
  | [], _ => none
  | (k', v') :: rest, k => if k' == k then some v' else cacheGet rest k

/-- Model of `Map.prototype.set`: replace the entry in place, or append a
new one. -/
def cacheSet : Cache → String → CacheEntry → Cache
  | [], k, v => [(k, v)]
  | (k', v') :: rest, k, v =>
    if k' == k then (k, v) :: rest else (k', v') :: cacheSet rest k v

/-- Cache time-to-live: `this.cacheExpiry = 30 * 60 * 1000` milliseconds
(src/script.js:17). -/
def cacheExpiry : ℕ := 30 * 60 * 1000

/-- Cache lookup as the orchestrator performs it (src/script.js:207-211):
a stored entry is returned only while `Date.now() - timestamp` is strictly
below the TTL.  (`ℕ`-subtraction truncates at `0` exactly as the negative
JavaScript difference also satisfies `< cacheExpiry`.) -/
def cacheFresh (cache : Cache) (now : ℕ) (question : String) : Option Response :=
  match cacheGet cache question with
  | some entry =>
    if now - entry.timestamp < cacheExpiry then some entry.response else none
  | none => none

/-- How the environment answered the primary `fetch` of `searchPosts`:
a parsed JSON array of posts, a non-ok HTTP response with its status code
(the code then throws `Error("HTTP " + status)`), or a rejection/parse
exception carrying its message. -/
inductive PrimaryOutcome where
  | ok (posts : List Post)
  | httpError (status : ℕ)
  | fetchReject (msg : String)

/-- How the environment answered the fallback fetch of
`searchWithCorsProxy`: the fetch or its `.json()` threw; or an envelope
whose `contents` field is absent (`none`), present but not parseable
(`some none`), or parseable to a post list. -/
inductive FallbackOutcome where
  | fetchFail
  | payload (contents : Option (Option (List Post)))

/-- Result of `searchPosts` seen by the orchestrator: a post list, or a
thrown error with its message. -/
inductive SearchOutcome where
  | results (posts : List Post)
  | fatal (msg : String)
deriving DecidableEq

/-- Result of the `searchPosts` model plus the instrumentation flag
recording whether the fallback transport was invoked. -/
structure SearchCall where
  outcome : SearchOutcome
  usedFallback : Bool
deriving DecidableEq

/-- `hay` contains `needle` as a contiguous substring —
`String.prototype.includes`. -/
def strContains (hay needle : String) : Bool :=
  hay.toList.tails.any fun t => needle.toList.isPrefixOf t

/-- The error-message test of `searchPosts` (src/script.js:37) deciding
whether the failure is network-class (connection blocked, cross-origin
rejection, or total fetch failure). -/
def isNetworkClassError (msg : String) : Bool :=
  strContains msg "CORS" || strContains msg "NetworkError" ||
    strContains msg "Failed to fetch"

/-- Model of `RAGChatSystem.searchWithCorsProxy` (src/script.js:48-64):
every failure inside the `try` (fetch failure, missing `contents`, parse
failure) is caught and yields the empty post list. -/
def searchWithCorsProxy (fb : FallbackOutcome) : List Post :=
  match fb with
  | .fetchFail => []
  | .payload none => []
  | .payload (some none) => []
  | .payload (some (some posts)) => posts

/-- Model of `RAGChatSystem.searchPosts` (src/script.js:24-43): an ok
response yields its posts; any caught error whose message matches the
network-class patterns routes to the CORS proxy; every other error is
re-thrown as the fixed fatal message.  A non-2xx response throws
`Error("HTTP " + status)` first. -/
def searchPosts (primary : PrimaryOutcome) (fb : FallbackOutcome) : SearchCall :=
  match primary with
  | .ok posts => { outcome := .results posts, usedFallback := false }
  | .httpError status =>
    if isNetworkClassError ("HTTP " ++ natToString status) then
      { outcome := .results (searchWithCorsProxy fb), usedFallback := true }
    else
      { outcome := .fatal "Не мога да извърша търсене в момента.", usedFallback := false }
  | .fetchReject msg =>
    if isNetworkClassError msg then
      { outcome := .results (searchWithCorsProxy fb), usedFallback := true }
    else
      { outcome := .fatal "Не мога да извърша търсене в момента.", usedFallback := false }

/-- JavaScript string trimming (`String.prototype.trim`). -/
def jsTrim (s : String) : String :=
  String.mk (((s.toList.dropWhile isJsSpace).reverse.dropWhile isJsSpace).reverse)

/-- JavaScript string `length`: the number of UTF-16 code units. -/
def utf16Len (s : String) : ℕ :=
  (s.toList.map fun c => if c.toNat < 0x10000 then 1 else 2).sum

/-- Everything `processQuery` produces: the resolved response, the cache
afterwards, and instrumentation flags recording whether `searchPosts`
and the fallback transport were invoked. -/
structure QueryResult where
  response : Response
  cache : Cache
  usedSearch : Bool
  usedFallback : Bool

/-- Model of `RAGChatSystem.processQuery` (src/script.js:206-237).  The
function always resolves: the body after the cache check is wrapped in a
`try` whose `catch` returns the fixed technical-error response, and the
only statement that can throw is the `searchPosts` call (modelled by the
`.fatal` branch). -/
noncomputable def processQuery (cleanHtml fmtDate : String → String)
    (cache : Cache) (now : ℕ) (question : String)
    (primary : PrimaryOutcome) (fb : FallbackOutcome) : QueryResult :=
  match cacheFresh cache now question with
  | some response =>
    { response := response, cache := cache, usedSearch := false, usedFallback := false }
  | none =>
    if question = "" ∨ utf16Len (jsTrim question) < 3 then
      { response := { answer := shortQuestionAnswer, sources := [] }
        cache := cache, usedSearch := false, usedFallback := false }
    else
      let sc := searchPosts primary fb
      match sc.outcome with
      | .fatal _ =>
        { response := { answer := techErrorAnswer, sources := [] }
          cache := cache, usedSearch := true, usedFallback := sc.usedFallback }
      | .results posts =>
        if posts.length = 0 then
          { response := { answer := noMatchesAnswer, sources := [] }
            cache := cache, usedSearch := true, usedFallback := sc.usedFallback }
        else
          let ranked := rankRelevantPosts cleanHtml question posts 5
          let response := generateResponse cleanHtml fmtDate question ranked
          { response := response
            cache := cacheSet cache question { response := response, timestamp := now }
            usedSearch := true, usedFallback := sc.usedFallback }

/-! ### Cache lemmas -/

theorem cacheGet_cacheSet_self (c : Cache) (k : String) (v : CacheEntry) :
    cacheGet (cacheSet c k v) k = some v := by
  induction c with
  | nil => simp [cacheSet, cacheGet]
  | cons p rest ih =>
    obtain ⟨k', v'⟩ := p
    by_cases h : (k' == k) = true
    · simp [cacheSet, h, cacheGet]
    · simp only [cacheSet, cacheGet, h, if_false, Bool.false_eq_true]
      exact ih

/-! ### Stable-sort lemmas -/

/-- The order that `rankRelevantPosts` establishes: descending similarity,
and at equal similarity ascending original index (stability). -/
def RankOrder (a b : RankedItem) : Prop :=
  b.similarity ≤ a.similarity ∧ (a.similarity = b.similarity → a.index < b.index)

theorem mem_insertDesc (z x : RankedItem) (l : List RankedItem) :
    z ∈ insertDesc x l ↔ z = x ∨ z ∈ l := by
  induction l with
  | nil => simp [insertDesc]
  | cons y ys ih =>
    by_cases h : y.similarity ≤ x.similarity
    · rw [insertDesc, if_pos h]
      simp [or_comm, or_assoc, or_left_comm]
    · rw [insertDesc, if_neg h]
      simp only [List.mem_cons, ih]
      tauto

theorem insertDesc_pairwise {x : RankedItem} {l : List RankedItem}
    (hl : l.Pairwise RankOrder) (hx : ∀ y ∈ l, x.index < y.index) :
    (insertDesc x l).Pairwise RankOrder := by
  induction l with
  | nil => simp [insertDesc, RankOrder]
  | cons y ys ih =>
    rw [List.pairwise_cons] at hl
    obtain ⟨hy, hys⟩ := hl
    by_cases h : y.similarity ≤ x.similarity
    · rw [insertDesc, if_pos h]
      refine List.Pairwise.cons ?_ (List.Pairwise.cons hy hys)
      intro z hz
      rcases List.mem_cons.1 hz with rfl | hz'
      · exact ⟨h, fun _ => hx z (List.mem_cons_self _ _)⟩
      · exact ⟨le_trans (hy z hz').1 h, fun _ => hx z (List.mem_cons_of_mem _ hz')⟩
    · rw [insertDesc, if_neg h]
      refine List.Pairwise.cons ?_ (ih hys fun z hz => hx z (List.mem_cons_of_mem _ hz))
      intro z hz
      rcases (mem_insertDesc z x ys).1 hz with rfl | hz'
      · exact ⟨le_of_lt (lt_of_not_le h), fun he => absurd he (ne_of_gt (lt_of_not_le h))⟩
      · exact hy z hz'

theorem sortDescStable_mem (z : RankedItem) (l : List RankedItem) :
    z ∈ sortDescStable l ↔ z ∈ l := by
  induction l with
  | nil => simp [sortDescStable]
  | cons x xs ih =>
    rw [sortDescStable, mem_insertDesc]
    simp [ih]

theorem sortDescStable_pairwise {l : List RankedItem}
    (h : l.Pairwise fun a b => a.index < b.index) :
    (sortDescStable l).Pairwise RankOrder := by
  induction l with
  | nil => simp [sortDescStable]
  | cons x xs ih =>
    rw [List.pairwise_cons] at h
    rw [sortDescStable]
    exact insertDesc_pairwise (ih h.2) fun y hy => h.1 y ((sortDescStable_mem y xs).1 hy)

theorem pairwise_fst_lt_enumFrom {α : Type*} (n : ℕ) (l : List α) :
    (List.enumFrom n l).Pairwise fun a b => a.1 < b.1 := by
  induction l generalizing n with
  | nil => simp
  | cons x xs ih =>
    refine List.Pairwise.cons ?_ (ih (n + 1))
    intro p hp
    exact lt_of_lt_of_le (Nat.lt_succ_self n) (List.le_fst_of_mem_enumFrom hp)

theorem pairwise_fst_lt_enum {α : Type*} (l : List α) :
    l.enum.Pairwise fun a b => a.1 < b.1 := pairwise_fst_lt_enumFrom 0 l

/-! ### Sum-of-squares and Cauchy-Schwarz lemmas -/

theorem sumSq_nonneg (v : List ℝ) : 0 ≤ sumSq v := by
  refine List.sum_nonneg ?_
  intro x hx
  obtain ⟨y, _, rfl⟩ := List.mem_map.1 hx
  exact mul_self_nonneg y

theorem sumSq_cons (x : ℝ) (v : List ℝ) : sumSq (x :: v) = x * x + sumSq v := by
  simp [sumSq]

theorem sumDot_cons (x y : ℝ) (a b : List ℝ) :
    sumDot (x :: a) (y :: b) = x * y + sumDot a b := by
  simp [sumDot]

theorem sumDot_sq_le (a b : List ℝ) : sumDot a b ^ 2 ≤ sumSq a * sumSq b := by
  induction a generalizing b with
  | nil =>
    simp only [sumDot, List.zipWith_nil_left, List.sum_nil, ne_eq, OfNat.ofNat_ne_zero,
      not_false_eq_true, zero_pow]
    exact mul_nonneg (sumSq_nonneg _) (sumSq_nonneg _)
  | cons x as ih =>
    cases b with
    | nil =>
      simp only [sumDot, List.zipWith_nil_right, List.sum_nil, ne_eq, OfNat.ofNat_ne_zero,
        not_false_eq_true, zero_pow]
      exact mul_nonneg (sumSq_nonneg _) (sumSq_nonneg _)
    | cons y bs =>
      have hA := sumSq_nonneg as
      have hB := sumSq_nonneg bs
      have h := ih bs
      rw [sumDot_cons, sumSq_cons, sumSq_cons]
      rcases eq_or_lt_of_le hB with hB0 | hBpos
      · have hsq : sumDot as bs ^ 2 = 0 := by nlinarith [sq_nonneg (sumDot as bs)]
        have hd : sumDot as bs = 0 := pow_eq_zero_iff two_ne_zero |>.1 hsq
        rw [hd, ← hB0]
        nlinarith [mul_nonneg hA (mul_self_nonneg y)]
      · have key : sumSq bs *
            ((x * x + sumSq as) * (y * y + sumSq bs) - (x * y + sumDot as bs) ^ 2) =
            (x * sumSq bs - y * sumDot as bs) ^ 2 +
              (sumSq as * sumSq bs - sumDot as bs ^ 2) * (y * y + sumSq bs) := by
          ring
        nlinarith [key, sq_nonneg (x * sumSq bs - y * sumDot as bs),
          mul_nonneg (sub_nonneg.2 h) (add_nonneg (mul_self_nonneg y) hB), hBpos]

theorem zipWith_mul_map {α : Type*} (l : List α) (f g : α → ℝ) :
    List.zipWith (fun x y => x * y) (l.map f) (l.map g) = l.map fun x => f x * g x := by
  induction l with
  | nil => rfl
  | cons x xs ih => simp [ih]

theorem sumDot_map {α : Type*} (l : List α) (f g : α → ℝ) :
    sumDot (l.map f) (l.map g) = (l.map fun x => f x * g x).sum := by
  rw [sumDot, zipWith_mul_map]

/-! ### TF-IDF structure lemmas -/

theorem tfidfComponent_eq (pds : List (List String)) (words : List String) (w : String) :
    tfidfComponent pds words w =
      (if w ∈ words then ((words.count w : ℝ) / (words.length : ℝ)) else 0) *
        idfValue pds w := by
  rw [tfidfComponent]
  by_cases h : w ∈ words
  · rw [if_pos h, if_pos h]
  · rw [if_neg h, if_neg h, zero_mul]

theorem tfFactor_nonneg (words : List String) (w : String) :
    0 ≤ (if w ∈ words then ((words.count w : ℝ) / (words.length : ℝ)) else 0) := by
  by_cases h : w ∈ words
  · rw [if_pos h]
    positivity
  · rw [if_neg h]

theorem tfidf_dot_nonneg (pds : List (List String)) (vocab : List String)
    (wu wv : List String) :
    0 ≤ sumDot (vocab.map fun w => tfidfComponent pds wu w)
        (vocab.map fun w => tfidfComponent pds wv w) := by
  rw [sumDot_map]
  refine List.sum_nonneg ?_
  intro x hx
  obtain ⟨w, _, rfl⟩ := List.mem_map.1 hx
  rw [tfidfComponent_eq pds wu, tfidfComponent_eq pds wv]
  have hu := tfFactor_nonneg wu w
  have hv := tfFactor_nonneg wv w
  set tu := (if w ∈ wu then ((wu.count w : ℝ) / (wu.length : ℝ)) else 0)
  set tv := (if w ∈ wv then ((wv.count w : ℝ) / (wv.length : ℝ)) else 0)
  have : tu * idfValue pds w * (tv * idfValue pds w) =
      tu * tv * (idfValue pds w * idfValue pds w) := by ring
  rw [this]
  exact mul_nonneg (mul_nonneg hu hv) (mul_self_nonneg _)

theorem cosineSimilarity_le_one (a b : List ℝ) : cosineSimilarity a b ≤ 1 := by
  rw [cosineSimilarity]
  by_cases hc : sumSq a = 0 ∨ sumSq b = 0
  · rw [if_pos hc]
    exact zero_le_one
  · rw [if_neg hc]
    push_neg at hc
    have hA : 0 < sumSq a := lt_of_le_of_ne (sumSq_nonneg a) (Ne.symm hc.1)
    have hB : 0 < sumSq b := lt_of_le_of_ne (sumSq_nonneg b) (Ne.symm hc.2)
    rw [div_le_one (by positivity)]
    calc sumDot a b ≤ |sumDot a b| := le_abs_self _
      _ = Real.sqrt (sumDot a b ^ 2) := (Real.sqrt_sq_eq_abs _).symm
      _ ≤ Real.sqrt (sumSq a * sumSq b) := Real.sqrt_le_sqrt (sumDot_sq_le a b)
      _ = Real.sqrt (sumSq a) * Real.sqrt (sumSq b) := Real.sqrt_mul (le_of_lt hA) _

theorem cosineSimilarity_nonneg_of_dot (a b : List ℝ) (h : 0 ≤ sumDot a b) :
    0 ≤ cosineSimilarity a b := by
  rw [cosineSimilarity]
  by_cases hc : sumSq a = 0 ∨ sumSq b = 0
  · rw [if_pos hc]
  · rw [if_neg hc]
    exact div_nonneg h (mul_nonneg (Real.sqrt_nonneg _) (Real.sqrt_nonneg _))

theorem createTfIdfVectors_vectors (documents : List String) :
    (createTfIdfVectors documents).vectors =
      (documents.map preprocessText).map fun words =>
        (createTfIdfVectors documents).vocabulary.map fun w =>
          tfidfComponent (documents.map preprocessText) words w := rfl

theorem createTfIdfVectors_vocabulary (documents : List String) :
    (createTfIdfVectors documents).vocabulary =
      firstDedup (documents.map preprocessText).flatten := rfl

theorem mem_vectors (documents : List String) (v : List ℝ)
    (hv : v ∈ (createTfIdfVectors documents).vectors) :
    ∃ words ∈ documents.map preprocessText,
      v = (createTfIdfVectors documents).vocabulary.map fun w =>
        tfidfComponent (documents.map preprocessText) words w := by
  rw [createTfIdfVectors_vectors] at hv
  obtain ⟨words, hw, rfl⟩ := List.mem_map.1 hv
  exact ⟨words, hw, rfl⟩

theorem mem_of_mem_firstDedupAux :
    ∀ (l seen : List String) (x : String), x ∈ firstDedupAux l seen → x ∈ l := by
  intro l
  induction l with
  | nil => intro seen x h; simp [firstDedupAux] at h
  | cons y ys ih =>
    intro seen x h
    rw [firstDedupAux] at h
    by_cases hy : y ∈ seen
    · rw [if_pos hy] at h
      exact List.mem_cons_of_mem _ (ih _ _ h)
    · rw [if_neg hy] at h
      rcases List.mem_cons.1 h with rfl | h'
      · exact List.mem_cons_self _ _
      · exact List.mem_cons_of_mem _ (ih _ _ h')

theorem mem_of_mem_firstDedup (l : List String) (x : String)
    (h : x ∈ firstDedup l) : x ∈ l :=
  mem_of_mem_firstDedupAux l [] x h

/-! ### Decimal-digit and substring lemmas -/

theorem natDigitsAux_mem (fuel : ℕ) :
    ∀ (n : ℕ) (c : Char), c ∈ natDigitsAux fuel n →
      c ∈ ['0', '1', '2', '3', '4', '5', '6', '7', '8', '9'] := by
  induction fuel with
  | zero =>
    intro n c hc
    rw [natDigitsAux] at hc
    have h10 : n % 10 < 10 := Nat.mod_lt _ (by omega)
    revert hc
    generalize n % 10 = m at h10 ⊢
    intro hc
    obtain rfl := List.mem_singleton.1 hc
    interval_cases m <;> decide
  | succ fuel ih =>
    intro n c hc
    rw [natDigitsAux] at hc
    by_cases h : n < 10
    · rw [if_pos h] at hc
      obtain rfl := List.mem_singleton.1 hc
      interval_cases n <;> decide
    · rw [if_neg h] at hc
      rcases List.mem_append.1 hc with h' | h'
      · exact ih _ c h'
      · have h10 : n % 10 < 10 := Nat.mod_lt _ (by omega)
        revert h'
        generalize n % 10 = m at h10 ⊢
        intro h'
        obtain rfl := List.mem_singleton.1 h'
        interval_cases m <;> decide

theorem head_mem_of_strContains (hay : String) (c : Char) (cs : List Char)
    (h : strContains hay (String.mk (c :: cs)) = true) : c ∈ hay.toList := by
  rw [strContains, List.any_eq_true] at h
  obtain ⟨t, ht, hp⟩ := h
  have hpre : c :: cs <+: t := List.isPrefixOf_iff_prefix.mp hp
  obtain ⟨r, hr⟩ := hpre
  have hct : c ∈ t := by
    rw [← hr]
    exact List.mem_append_left _ (List.mem_cons_self _ _)
  exact ((List.mem_tails t hay.toList).1 ht).subset hct

theorem isNetworkClassError_http (status : ℕ) :
    isNetworkClassError ("HTTP " ++ natToString status) = false := by
  have hmem : ∀ c ∈ ("HTTP " ++ natToString status).toList,
      c ∈ ['H', 'T', 'P', ' ', '0', '1', '2', '3', '4', '5', '6', '7', '8', '9'] := by
    intro c hc
    have hsplit : ("HTTP " ++ natToString status).toList =
        "HTTP ".toList ++ natDigits status := by
      simp [natToString, String.toList]
    rw [hsplit] at hc
    rcases List.mem_append.1 hc with h | h
    · have h5 : ("HTTP " : String).toList = ['H', 'T', 'T', 'P', ' '] := rfl
      rw [h5] at h
      fin_cases h <;> decide
    · have := natDigitsAux_mem status status c h
      fin_cases this <;> decide
  have hfalse : ∀ (c : Char) (cs : List Char),
      c ∉ (['H', 'T', 'P', ' ', '0', '1', '2', '3', '4', '5', '6', '7', '8', '9'] : List Char) →
      strContains ("HTTP " ++ natToString status) (String.mk (c :: cs)) = false := by
    intro c cs hcnot
    by_contra hne
    rw [Bool.not_eq_false] at hne
    exact hcnot (hmem c (head_mem_of_strContains _ c cs hne))
  have h1 : strContains ("HTTP " ++ natToString status) "CORS" = false :=
    hfalse 'C' ['O', 'R', 'S'] (by decide)
  have h2 : strContains ("HTTP " ++ natToString status) "NetworkError" = false :=
    hfalse 'N' "etworkError".toList (by decide)
  have h3 : strContains ("HTTP " ++ natToString status) "Failed to fetch" = false :=
    hfalse 'F' "ailed to fetch".toList (by decide)
  rw [isNetworkClassError, h1, h2, h3]
  rfl

/-! ### Orchestrator path lemmas -/

theorem generateResponse_nil (cleanHtml fmtDate : String → String) (query : String) :
    generateResponse cleanHtml fmtDate query [] =
      { answer := noInfoAnswer, sources := [] } := by
  rw [generateResponse]
  rfl

theorem processQuery_hit (cleanHtml fmtDate : String → String) (cache : Cache)
    (now : ℕ) (question : String) (primary : PrimaryOutcome) (fb : FallbackOutcome)
    (r : Response) (hfresh : cacheFresh cache now question = some r) :
    processQuery cleanHtml fmtDate cache now question primary fb =
      { response := r, cache := cache, usedSearch := false, usedFallback := false } := by
  simp only [processQuery, hfresh]

theorem processQuery_miss_short (cleanHtml fmtDate : String → String) (cache : Cache)
    (now : ℕ) (question : String) (primary : PrimaryOutcome) (fb : FallbackOutcome)
    (hmiss : cacheFresh cache now question = none)
    (hshort : question = "" ∨ utf16Len (jsTrim question) < 3) :
    processQuery cleanHtml fmtDate cache now question primary fb =
      { response := { answer := shortQuestionAnswer, sources := [] }
        cache := cache, usedSearch := false, usedFallback := false } := by
  simp only [processQuery, hmiss]
  rw [if_pos hshort]

theorem processQuery_miss_fatal (cleanHtml fmtDate : String → String) (cache : Cache)
    (now : ℕ) (question : String) (primary : PrimaryOutcome) (fb : FallbackOutcome)
    (msg : String)
    (hmiss : cacheFresh cache now question = none)
    (hvalid : ¬(question = "" ∨ utf16Len (jsTrim question) < 3))
    (hfatal : (searchPosts primary fb).outcome = .fatal msg) :
    processQuery cleanHtml fmtDate cache now question primary fb =
      { response := { answer := techErrorAnswer, sources := [] }
        cache := cache, usedSearch := true
        usedFallback := (searchPosts primary fb).usedFallback } := by
  simp only [processQuery, hmiss]
  rw [if_neg hvalid, hfatal]

theorem processQuery_miss_empty (cleanHtml fmtDate : String → String) (cache : Cache)
    (now : ℕ) (question : String) (primary : PrimaryOutcome) (fb : FallbackOutcome)
    (hmiss : cacheFresh cache now question = none)
    (hvalid : ¬(question = "" ∨ utf16Len (jsTrim question) < 3))
    (hres : (searchPosts primary fb).outcome = .results []) :
    processQuery cleanHtml fmtDate cache now question primary fb =
      { response := { answer := noMatchesAnswer, sources := [] }
        cache := cache, usedSearch := true
        usedFallback := (searchPosts primary fb).usedFallback } := by
  simp only [processQuery, hmiss]
  rw [if_neg hvalid, hres]
  rfl

theorem processQuery_miss_computed (cleanHtml fmtDate : String → String) (cache : Cache)
    (now : ℕ) (question : String) (primary : PrimaryOutcome) (fb : FallbackOutcome)
    (posts : List Post)
    (hmiss : cacheFresh cache now question = none)
    (hvalid : ¬(question = "" ∨ utf16Len (jsTrim question) < 3))
    (hres : (searchPosts primary fb).outcome = .results posts)
    (hne : posts ≠ []) :
    processQuery cleanHtml fmtDate cache now question primary fb =
      { response := generateResponse cleanHtml fmtDate question
          (rankRelevantPosts cleanHtml question posts 5)
        cache := cacheSet cache question
          { response := generateResponse cleanHtml fmtDate question
              (rankRelevantPosts cleanHtml question posts 5)
            timestamp := now }
        usedSearch := true
        usedFallback := (searchPosts primary fb).usedFallback } := by
  simp only [processQuery, hmiss]
  rw [if_neg hvalid, hres]
  cases posts with
  | nil => exact absurd rfl hne
  | cons p ps => rfl

theorem getD_map_of_lt {α β : Type*} (l : List α) (f : α → β) (i : ℕ) (d : β) (d' : α)
    (h : i < l.length) : (l.map f).getD i d = f (l.getD i d') := by
  rw [List.getD_eq_getElem?_getD, List.getElem?_map, List.getElem?_eq_getElem h,
    List.getD_eq_getElem?_getD, List.getElem?_eq_getElem h]
  rfl

theorem getLastD_mem {α : Type*} (l : List α) (d : α) (h : l ≠ []) :
    l.getLastD d ∈ l := by
  rw [List.getLastD_eq_getLast?, List.getLast?_eq_getLast l h]
  exact List.getLast_mem h

/-! ### Claim theorems -/

/-- C1: `processQuery` never throws and its promise is never rejected —
in this embedding it is a total function into `QueryResult`, whose
`response` always carries a `String` answer and a list of sources — and
on every failure path (question too short, retrieval failure, empty
retrieval, ranking yielding nothing, which is also where a caught
ranking/composition exception lands) the returned `sources` list is
empty. -/
theorem processQuery_failure_paths_sources_empty
    (cleanHtml fmtDate : String → String) (cache : Cache) (now : ℕ)
    (question : String) (primary : PrimaryOutcome) (fb : FallbackOutcome) :
    ((cacheFresh cache now question = none ∧
        (question = "" ∨ utf16Len (jsTrim question) < 3)) →
      (processQuery cleanHtml fmtDate cache now question primary fb).response =
        { answer := shortQuestionAnswer, sources := [] }) ∧
    ((cacheFresh cache now question = none ∧
        ¬(question = "" ∨ utf16Len (jsTrim question) < 3) ∧
        (∃ msg, (searchPosts primary fb).outcome = .fatal msg)) →
      (processQuery cleanHtml fmtDate cache now question primary fb).response =
        { answer := techErrorAnswer, sources := [] }) ∧
    ((cacheFresh cache now question = none ∧
        ¬(question = "" ∨ utf16Len (jsTrim question) < 3) ∧
        (searchPosts primary fb).outcome = .results []) →
      (processQuery cleanHtml fmtDate cache now question primary fb).response =
        { answer := noMatchesAnswer, sources := [] }) ∧
    (∀ posts : List Post,
      (cacheFresh cache now question = none ∧
        ¬(question = "" ∨ utf16Len (jsTrim question) < 3) ∧
        (searchPosts primary fb).outcome = .results posts ∧ posts ≠ [] ∧
        rankRelevantPosts cleanHtml question posts 5 = []) →
      (processQuery cleanHtml fmtDate cache now question primary fb).response =
        { answer := noInfoAnswer, sources := [] }) := by
  refine ⟨?_, ?_, ?_, ?_⟩
  · rintro ⟨hmiss, hshort⟩
    rw [processQuery_miss_short cleanHtml fmtDate cache now question primary fb hmiss hshort]
  · rintro ⟨hmiss, hvalid, msg, hfatal⟩
    rw [processQuery_miss_fatal cleanHtml fmtDate cache now question primary fb msg
      hmiss hvalid hfatal]
  · rintro ⟨hmiss, hvalid, hres⟩
    rw [processQuery_miss_empty cleanHtml fmtDate cache now question primary fb
      hmiss hvalid hres]
  · rintro posts ⟨hmiss, hvalid, hres, hne, hrank⟩
    rw [processQuery_miss_computed cleanHtml fmtDate cache now question primary fb posts
      hmiss hvalid hres hne]
    simp only [hrank]
    rw [generateResponse_nil]

/-- Witness for C1 at concrete inputs: the retrieval-failure path (an
HTTP 500 on a valid, uncached question) resolves to the technical-error
response with empty sources. -/
theorem processQuery_failure_paths_sources_empty_witness :
    (processQuery id id [] 0 "xyz" (.httpError 500) .fetchFail).response =
      { answer := techErrorAnswer, sources := [] } :=
  (processQuery_failure_paths_sources_empty id id [] 0 "xyz"
      (.httpError 500) .fetchFail).2.1
    ⟨rfl, by decide, "Не мога да извърша търсене в момента.", by decide⟩

/-- C2: a cached entry younger than 30 minutes is returned identically
without invoking the transport and without touching the cache; an entry
30 minutes old or older is a miss, so a valid question triggers retrieval
again; and a successful full computation stores its response in the cache
under the raw question with the current timestamp. -/
theorem processQuery_cache_ttl :
    (∀ (cleanHtml fmtDate : String → String) (cache : Cache) (now2 : ℕ)
        (q : String) (p : PrimaryOutcome) (fb : FallbackOutcome)
        (r : Response) (ts : ℕ),
      cacheGet cache q = some { response := r, timestamp := ts } →
      now2 - ts < cacheExpiry →
      processQuery cleanHtml fmtDate cache now2 q p fb =
        { response := r, cache := cache, usedSearch := false, usedFallback := false }) ∧
    (∀ (cleanHtml fmtDate : String → String) (cache : Cache) (now2 : ℕ)
        (q : String) (p : PrimaryOutcome) (fb : FallbackOutcome)
        (r : Response) (ts : ℕ),
      cacheGet cache q = some { response := r, timestamp := ts } →
      cacheExpiry ≤ now2 - ts →
      ¬(q = "" ∨ utf16Len (jsTrim q) < 3) →
      (processQuery cleanHtml fmtDate cache now2 q p fb).usedSearch = true) ∧
    (∀ (cleanHtml fmtDate : String → String) (cache : Cache) (now : ℕ)
        (q : String) (p : PrimaryOutcome) (fb : FallbackOutcome) (posts : List Post),
      cacheFresh cache now q = none →
      ¬(q = "" ∨ utf16Len (jsTrim q) < 3) →
      (searchPosts p fb).outcome = .results posts → posts ≠ [] →
      cacheGet (processQuery cleanHtml fmtDate cache now q p fb).cache q =
        some { response := (processQuery cleanHtml fmtDate cache now q p fb).response
               timestamp := now }) := by
  refine ⟨?_, ?_, ?_⟩
  · intro cleanHtml fmtDate cache now2 q p fb r ts hget hfreshTime
    have hfresh : cacheFresh cache now2 q = some r := by
      simp only [cacheFresh, hget]
      rw [if_pos hfreshTime]
    exact processQuery_hit cleanHtml fmtDate cache now2 q p fb r hfresh
  · intro cleanHtml fmtDate cache now2 q p fb r ts hget hstale hvalid
    have hmiss : cacheFresh cache now2 q = none := by
      simp only [cacheFresh, hget]
      rw [if_neg (not_lt.2 hstale)]
    rcases hout : (searchPosts p fb).outcome with posts | msg
    · rcases List.eq_nil_or_concat posts with rfl | _
      · rw [processQuery_miss_empty cleanHtml fmtDate cache now2 q p fb hmiss hvalid hout]
      · by_cases hne : posts = []
        · subst hne
          rw [processQuery_miss_empty cleanHtml fmtDate cache now2 q p fb hmiss hvalid hout]
        · rw [processQuery_miss_computed cleanHtml fmtDate cache now2 q p fb posts
            hmiss hvalid hout hne]
    · rw [processQuery_miss_fatal cleanHtml fmtDate cache now2 q p fb msg hmiss hvalid hout]
  · intro cleanHtml fmtDate cache now q p fb posts hmiss hvalid hres hne
    rw [processQuery_miss_computed cleanHtml fmtDate cache now q p fb posts
      hmiss hvalid hres hne]
    exact cacheGet_cacheSet_self cache q _

/-- Witness for C2: with a five-millisecond-old entry for `"abc"` in the
cache, `processQuery` at time `10` returns the stored response unchanged
and does not invoke the transport. -/
theorem processQuery_cache_ttl_witness :
    processQuery id id
        [("abc", { response := { answer := "hello", sources := [] }, timestamp := 5 })]
        10 "abc" (.ok []) .fetchFail =
      { response := { answer := "hello", sources := [] }
        cache :=
          [("abc", { response := { answer := "hello", sources := [] }, timestamp := 5 })]
        usedSearch := false, usedFallback := false } :=
  processQuery_cache_ttl.1 id id _ 10 "abc" (.ok []) .fetchFail
    { answer := "hello", sources := [] } 5 rfl (by decide)

/-- C4: the fallback transport runs exactly when the primary failure
message matches the network-class patterns; a non-2xx HTTP status always
produces a non-matching `"HTTP <status>"` message, hence a fatal
retrieval error that surfaces as the orchestrator's technical-error
response; and a fallback that gets no payload, an empty envelope or an
unparseable payload returns the empty post list instead of raising. -/
theorem searchPosts_fallback_policy :
    (∀ (posts : List Post) (fb : FallbackOutcome),
      searchPosts (.ok posts) fb =
        { outcome := .results posts, usedFallback := false }) ∧
    (∀ (msg : String) (fb : FallbackOutcome), isNetworkClassError msg = true →
      searchPosts (.fetchReject msg) fb =
        { outcome := .results (searchWithCorsProxy fb), usedFallback := true }) ∧
    (∀ (msg : String) (fb : FallbackOutcome), isNetworkClassError msg = false →
      searchPosts (.fetchReject msg) fb =
        { outcome := .fatal "Не мога да извърша търсене в момента."
          usedFallback := false }) ∧
    (∀ (status : ℕ) (fb : FallbackOutcome),
      searchPosts (.httpError status) fb =
        { outcome := .fatal "Не мога да извърша търсене в момента."
          usedFallback := false }) ∧
    (searchWithCorsProxy .fetchFail = [] ∧
      searchWithCorsProxy (.payload none) = [] ∧
      searchWithCorsProxy (.payload (some none)) = []) ∧
    (∀ (cleanHtml fmtDate : String → String) (cache : Cache) (now : ℕ)
        (question : String) (status : ℕ) (fb : FallbackOutcome),
      cacheFresh cache now question = none →
      ¬(question = "" ∨ utf16Len (jsTrim question) < 3) →
      (processQuery cleanHtml fmtDate cache now question (.httpError status) fb).response =
        { answer := techErrorAnswer, sources := [] }) := by
  refine ⟨fun posts fb => rfl, ?_, ?_, ?_, ⟨rfl, rfl, rfl⟩, ?_⟩
  · intro msg fb h
    rw [searchPosts, if_pos h]
  · intro msg fb h
    rw [searchPosts, if_neg (by simp [h])]
  · intro status fb
    rw [searchPosts, if_neg (by simp [isNetworkClassError_http status])]
  · intro cleanHtml fmtDate cache now question status fb hmiss hvalid
    have hfatal : (searchPosts (.httpError status) fb).outcome =
        .fatal "Не мога да извърша търсене в момента." := by
      rw [searchPosts, if_neg (by simp [isNetworkClassError_http status])]
    rw [processQuery_miss_fatal cleanHtml fmtDate cache now question (.httpError status) fb
      _ hmiss hvalid hfatal]

/-- Witness for C4 at concrete inputs: a `"Failed to fetch"` rejection
triggers the fallback, a generic `"oops"` rejection is fatal without
fallback, and an uncached valid question hitting HTTP 404 resolves to the
technical-error response. -/
theorem searchPosts_fallback_policy_witness :
    searchPosts (.fetchReject "Failed to fetch") (.payload (some (some []))) =
      { outcome := .results (searchWithCorsProxy (.payload (some (some []))))
        usedFallback := true } ∧
    searchPosts (.fetchReject "oops") .fetchFail =
      { outcome := .fatal "Не мога да извърша търсене в момента."
        usedFallback := false } ∧
    (processQuery id id [] 0 "how" (.httpError 404) .fetchFail).response =
      { answer := techErrorAnswer, sources := [] } :=
  ⟨searchPosts_fallback_policy.2.1 "Failed to fetch" _ (by decide),
   searchPosts_fallback_policy.2.2.1 "oops" _ (by decide),
   searchPosts_fallback_policy.2.2.2.2.2 id id [] 0 "how" 404 .fetchFail rfl (by decide)⟩

/-- C5: an uncached (or stale-cached) question whose trimmed UTF-16
length is below 3 gets the fixed guidance response with empty sources,
the transport is never invoked, and the cache is left unchanged. -/
theorem processQuery_short_question (cleanHtml fmtDate : String → String)
    (cache : Cache) (now : ℕ) (question : String)
    (primary : PrimaryOutcome) (fb : FallbackOutcome)
    (hmiss : cacheFresh cache now question = none)
    (hshort : utf16Len (jsTrim question) < 3) :
    processQuery cleanHtml fmtDate cache now question primary fb =
      { response := { answer := shortQuestionAnswer, sources := [] }
        cache := cache, usedSearch := false, usedFallback := false } :=
  processQuery_miss_short cleanHtml fmtDate cache now question primary fb hmiss
    (Or.inr hshort)

/-- Witness for C5 at the concrete question `"a"` with an empty cache. -/
theorem processQuery_short_question_witness :
    processQuery id id [] 0 "a" (.ok [Post.mk 7 "t" "c" "e" "l" ""]) .fetchFail =
      { response := { answer := shortQuestionAnswer, sources := [] }
        cache := [], usedSearch := false, usedFallback := false } :=
  processQuery_short_question id id [] 0 "a" _ .fetchFail rfl (by decide)

/-- C8: whenever either argument of `cosineSimilarity` has zero Euclidean
norm (in particular the zero-length vectors of an empty corpus, and
all-zero vectors), the result is exactly `0`: the zero-norm guard
short-circuits before the division, so no NaN or division by zero can
arise in the real-number semantics. -/
theorem cosineSimilarity_zero_norm (vecA vecB : List ℝ)
    (h : Real.sqrt (sumSq vecA) = 0 ∨ Real.sqrt (sumSq vecB) = 0) :
    cosineSimilarity vecA vecB = 0 := by
  rw [cosineSimilarity, if_pos]
  rcases h with h | h
  · exact Or.inl (by rwa [Real.sqrt_eq_zero (sumSq_nonneg vecA)] at h)
  · exact Or.inr (by rwa [Real.sqrt_eq_zero (sumSq_nonneg vecB)] at h)

/-- Witness for C8 at the concrete all-zero vector `[0, 0]`. -/
theorem cosineSimilarity_zero_norm_witness :
    Real.sqrt (sumSq ([0, 0] : List ℝ)) = 0 ∧
      cosineSimilarity ([0, 0] : List ℝ) [1, 2] = 0 := by
  have h : sumSq ([0, 0] : List ℝ) = 0 := by
    simp [sumSq]
  have h0 : Real.sqrt (sumSq ([0, 0] : List ℝ)) = 0 := by
    rw [h, Real.sqrt_zero]
  exact ⟨h0, cosineSimilarity_zero_norm _ _ (Or.inl h0)⟩

/-- C10: when retrieval returns a non-empty post list but ranking returns
nothing, the composed no-relevant-information response (with empty
sources) is stored in the cache under the raw question with the current
timestamp, and an identical question re-asked less than 30 minutes later
is answered from the cache without invoking the transport. -/
theorem processQuery_negative_result_cached (cleanHtml fmtDate : String → String)
    (cache : Cache) (now : ℕ) (q : String)
    (p : PrimaryOutcome) (fb : FallbackOutcome) (posts : List Post)
    (hmiss : cacheFresh cache now q = none)
    (hvalid : ¬(q = "" ∨ utf16Len (jsTrim q) < 3))
    (hres : (searchPosts p fb).outcome = .results posts)
    (hne : posts ≠ [])
    (hrank : rankRelevantPosts cleanHtml q posts 5 = []) :
    (processQuery cleanHtml fmtDate cache now q p fb).response =
      { answer := noInfoAnswer, sources := [] } ∧
    cacheGet (processQuery cleanHtml fmtDate cache now q p fb).cache q =
      some { response := { answer := noInfoAnswer, sources := [] }, timestamp := now } ∧
    (∀ (now2 : ℕ) (p2 : PrimaryOutcome) (fb2 : FallbackOutcome),
      now2 - now < cacheExpiry →
      processQuery cleanHtml fmtDate
          (processQuery cleanHtml fmtDate cache now q p fb).cache now2 q p2 fb2 =
        { response := { answer := noInfoAnswer, sources := [] }
          cache := (processQuery cleanHtml fmtDate cache now q p fb).cache
          usedSearch := false, usedFallback := false }) := by
  have hmain := processQuery_miss_computed cleanHtml fmtDate cache now q p fb posts
    hmiss hvalid hres hne
  rw [hrank, generateResponse_nil] at hmain
  refine ⟨by rw [hmain], by rw [hmain]; exact cacheGet_cacheSet_self cache q _, ?_⟩
  intro now2 p2 fb2 hlt
  have hget : cacheGet (processQuery cleanHtml fmtDate cache now q p fb).cache q =
      some { response := { answer := noInfoAnswer, sources := [] }, timestamp := now } := by
    rw [hmain]
    exact cacheGet_cacheSet_self cache q _
  have hfresh : cacheFresh (processQuery cleanHtml fmtDate cache now q p fb).cache now2 q =
      some { answer := noInfoAnswer, sources := [] } := by
    simp only [cacheFresh, hget]
    rw [if_pos hlt]
  exact processQuery_hit cleanHtml fmtDate _ now2 q p2 fb2 _ hfresh

/-- C9: within one vectorization run the vector list is parallel to the
document list, every vector has exactly one component per vocabulary term
(so `cosineSimilarity` never reads past either vector), every vocabulary
term occurs in at least one non-empty tokenized document (document
frequency at least `1`, term-frequency division by a positive token
count), the logarithm argument is positive for a non-empty corpus, and in
particular the query vector produced inside `rankRelevantPosts` (the last
vector) and every document vector have the same length — so every
similarity is a well-defined finite real number. -/
theorem tfidf_vectors_well_formed (documents : List String) :
    (createTfIdfVectors documents).vectors.length = documents.length ∧
    (∀ v ∈ (createTfIdfVectors documents).vectors,
      v.length = (createTfIdfVectors documents).vocabulary.length) ∧
    (∀ w ∈ (createTfIdfVectors documents).vocabulary,
      1 ≤ docFreqCount (documents.map preprocessText) w ∧
      ∃ d ∈ documents.map preprocessText, w ∈ d ∧ 0 < d.length) ∧
    (0 < documents.length → ∀ w ∈ (createTfIdfVectors documents).vocabulary,
      0 < (((documents.map preprocessText).length : ℝ) /
        (1 + (docFreqCount (documents.map preprocessText) w : ℝ)))) ∧
    (∀ allTexts : List String, allTexts ≠ [] →
      ((createTfIdfVectors allTexts).vectors.getLastD []).length =
        (createTfIdfVectors allTexts).vocabulary.length) := by
  refine ⟨?_, ?_, ?_, ?_, ?_⟩
  · rw [createTfIdfVectors_vectors]
    simp
  · intro v hv
    obtain ⟨words, _, rfl⟩ := mem_vectors documents v hv
    simp
  · intro w hw
    rw [createTfIdfVectors_vocabulary] at hw
    have hw' := mem_of_mem_firstDedup _ _ hw
    rw [List.mem_flatten] at hw'
    obtain ⟨d, hd, hwd⟩ := hw'
    refine ⟨?_, d, hd, hwd, List.length_pos.2 (List.ne_nil_of_mem hwd)⟩
    have hdf : d ∈ (documents.map preprocessText).filter fun d => decide (w ∈ d) :=
      List.mem_filter.2 ⟨hd, by simpa using hwd⟩
    have hlen := List.length_pos.2 (List.ne_nil_of_mem hdf)
    rw [docFreqCount]
    omega
  · intro hpos w _
    apply div_pos
    · rw [List.length_map]
      exact_mod_cast hpos
    · positivity
  · intro allTexts hne
    have hv : (createTfIdfVectors allTexts).vectors ≠ [] := by
      rw [createTfIdfVectors_vectors]
      simp [hne]
    obtain ⟨words, _, hEq⟩ := mem_vectors allTexts _ (getLastD_mem _ [] hv)
    rw [hEq]
    simp

/-- Witness for C9 at the concrete corpus `["aaa"]`: the term `"aaa"` has
document frequency at least `1` and the vector list is parallel to the
corpus. -/
theorem tfidf_vectors_well_formed_witness :
    1 ≤ docFreqCount (["aaa"].map preprocessText) "aaa" ∧
    (createTfIdfVectors ["aaa"]).vectors.length = (["aaa"] : List String).length :=
  ⟨((tfidf_vectors_well_formed ["aaa"]).2.2.1 "aaa" (by decide)).1,
    (tfidf_vectors_well_formed ["aaa"]).1⟩

/-- C6: any two vectors produced by one `createTfIdfVectors` call — in
particular the query vector and any document vector inside a single
`rankRelevantPosts` run — have cosine similarity in `[0, 1]`: the
componentwise products share the squared IDF factor, so the dot product
is non-negative even when some components are negative through a negative
IDF, and Cauchy-Schwarz bounds the quotient by `1`. -/
theorem tfidf_cosineSimilarity_bounds (documents : List String) (u v : List ℝ)
    (hu : u ∈ (createTfIdfVectors documents).vectors)
    (hv : v ∈ (createTfIdfVectors documents).vectors) :
    0 ≤ cosineSimilarity u v ∧ cosineSimilarity u v ≤ 1 := by
  obtain ⟨wu, _, rfl⟩ := mem_vectors documents u hu
  obtain ⟨wv, _, rfl⟩ := mem_vectors documents v hv
  exact ⟨cosineSimilarity_nonneg_of_dot _ _ (tfidf_dot_nonneg _ _ wu wv),
    cosineSimilarity_le_one _ _⟩

/-- Witness for C6 at the concrete corpus `["aaa"]`, whose sole vector
has a negative component and still similarity `∈ [0, 1]` with itself. -/
theorem tfidf_cosineSimilarity_bounds_witness :
    0 ≤ cosineSimilarity
        [tfidfComponent (["aaa"].map preprocessText) (preprocessText "aaa") "aaa"]
        [tfidfComponent (["aaa"].map preprocessText) (preprocessText "aaa") "aaa"] ∧
      cosineSimilarity
        [tfidfComponent (["aaa"].map preprocessText) (preprocessText "aaa") "aaa"]
        [tfidfComponent (["aaa"].map preprocessText) (preprocessText "aaa") "aaa"] ≤ 1 :=
  tfidf_cosineSimilarity_bounds ["aaa"] _ _
    (List.mem_singleton.2 rfl) (List.mem_singleton.2 rfl)

/-- C7 counterexample: for the corpus `["aaa"]` the sole vector component
is `(1/1) * ln(1/(1+1)) < 0`, refuting the claimed non-negativity of all
TF-IDF vector components. -/
theorem tfidf_component_negative_counterexample :
    ((createTfIdfVectors ["aaa"]).vectors.getD 0 []).getD 0 0 < 0 := by
  have h0 : ((createTfIdfVectors ["aaa"]).vectors.getD 0 []).getD 0 0 =
      tfidfComponent (["aaa"].map preprocessText) (preprocessText "aaa") "aaa" := rfl
  rw [h0, tfidfComponent,
    if_pos (show ("aaa" : String) ∈ preprocessText "aaa" by decide)]
  have h1 : (preprocessText "aaa").count "aaa" = 1 := rfl
  have h2 : (preprocessText "aaa").length = 1 := rfl
  have h3 : docFreqCount (["aaa"].map preprocessText) "aaa" = 1 := rfl
  have h4 : (["aaa"].map preprocessText).length = 1 := rfl
  rw [idfValue, h1, h2, h3, h4]
  have hlog : Real.log ((1 : ℝ) / (1 + (1 : ℕ))) < 0 := by
    push_cast
    exact Real.log_neg (by norm_num) (by norm_num)
  push_cast at hlog ⊢
  nlinarith [hlog]

/-- C7 (amended): every TF-IDF vector component for a term unseen in its
document is `0`, and a component is non-negative whenever the term's IDF
is non-negative; a component can be negative only through a negative IDF
(a term occurring in every document), which the spec itself records as
accepted behavior. -/
theorem tfidf_component_signs (documents : List String) (i j : ℕ)
    (hi : i < documents.length)
    (hj : j < (createTfIdfVectors documents).vocabulary.length) :
    ((createTfIdfVectors documents).vocabulary.getD j "" ∉
        (documents.map preprocessText).getD i [] →
      ((createTfIdfVectors documents).vectors.getD i []).getD j 0 = 0) ∧
    (0 ≤ idfValue (documents.map preprocessText)
        ((createTfIdfVectors documents).vocabulary.getD j "") →
      0 ≤ ((createTfIdfVectors documents).vectors.getD i []).getD j 0) := by
  have hi' : i < (documents.map preprocessText).length := by simpa using hi
  have hcomp : ((createTfIdfVectors documents).vectors.getD i []).getD j 0 =
      tfidfComponent (documents.map preprocessText)
        ((documents.map preprocessText).getD i [])
        ((createTfIdfVectors documents).vocabulary.getD j "") := by
    rw [createTfIdfVectors_vectors, getD_map_of_lt _ _ i [] [] hi']
    exact getD_map_of_lt _ _ j 0 "" hj
  rw [hcomp]
  constructor
  · intro hnot
    rw [tfidfComponent, if_neg hnot]
  · intro hidf
    rw [tfidfComponent_eq]
    exact mul_nonneg (tfFactor_nonneg _ _) hidf

/-- Witness for the amended C7 at the corpus `["aaa", "bbb"]`: the
component of term `"bbb"` in the first document (which does not contain
it) is `0`. -/
theorem tfidf_component_signs_witness :
    ((createTfIdfVectors ["aaa", "bbb"]).vectors.getD 0 []).getD 1 0 = 0 :=
  (tfidf_component_signs ["aaa", "bbb"] 0 1 (by decide) (by decide)).1 (by decide)

/-- C3: the ranker's output is sorted by descending similarity with ties
kept in original relative order (`RankOrder`), every kept result has
similarity strictly above `0.01` (results at or below the threshold are
dropped even when fewer than `topK` remain), and at most `topK` results
are returned (`rankRelevantPosts`'s declared default for `topK` is `5`) —
both for the internal ranked items and for the projected
`{post, similarity_score}` output. -/
theorem rankRelevantPosts_sorted_filtered_truncated
    (cleanHtml : String → String) (query : String) (posts : List Post) (topK : ℕ) :
    (rankItems cleanHtml query posts topK).Pairwise RankOrder ∧
    (∀ item ∈ rankItems cleanHtml query posts topK, (0.01 : ℝ) < item.similarity) ∧
    (rankItems cleanHtml query posts topK).length ≤ topK ∧
    (rankRelevantPosts cleanHtml query posts topK).Pairwise
      (fun a b => b.similarity_score ≤ a.similarity_score) ∧
    (∀ sp ∈ rankRelevantPosts cleanHtml query posts topK,
      (0.01 : ℝ) < sp.similarity_score) ∧
    (rankRelevantPosts cleanHtml query posts topK).length ≤ topK := by
  have hpair : (rankItems cleanHtml query posts topK).Pairwise RankOrder := by
    by_cases h0 : posts.length = 0
    · simp only [rankItems, if_pos h0]
      exact List.Pairwise.nil
    · simp only [rankItems, if_neg h0]
      refine ((sortDescStable_pairwise ?_).filter _).sublist (List.take_sublist _ _)
      refine (List.pairwise_map).2 ?_
      exact pairwise_fst_lt_enum _
  have hthresh : ∀ item ∈ rankItems cleanHtml query posts topK,
      (0.01 : ℝ) < item.similarity := by
    intro item hitem
    by_cases h0 : posts.length = 0
    · simp only [rankItems, if_pos h0] at hitem
      simp at hitem
    · simp only [rankItems, if_neg h0] at hitem
      have hf := List.mem_of_mem_take hitem
      exact of_decide_eq_true (List.mem_filter.1 hf).2
  have hlen : (rankItems cleanHtml query posts topK).length ≤ topK := by
    by_cases h0 : posts.length = 0
    · simp only [rankItems, if_pos h0]
      simp
    · simp only [rankItems, if_neg h0]
      exact List.length_take_le _ _
  refine ⟨hpair, hthresh, hlen, ?_, ?_, ?_⟩
  · exact (List.pairwise_map).2 (hpair.imp fun hab => hab.1)
  · intro sp hsp
    obtain ⟨item, hitem, rfl⟩ := List.mem_map.1 hsp
    exact hthresh item hitem
  · rw [rankRelevantPosts, List.length_map]
    exact hlen

/-- Witness for C3: a one-post corpus whose cleaned title matches the
query yields similarity `1`, above the `0.01` threshold, and the output
length stays within `topK = 5`. -/
theorem rankRelevantPosts_sorted_filtered_truncated_witness :
    (0.01 : ℝ) < cosineSimilarity
        [tfidfComponent [["zzzz"], ["zzzz"]] ["zzzz"] "zzzz"]
        [tfidfComponent [["zzzz"], ["zzzz"]] ["zzzz"] "zzzz"] ∧
    (rankRelevantPosts (fun s => s) "zzzz" [Post.mk 1 "zzzz" "" "" "" ""] 5).length ≤ 5 := by
  have hall := rankRelevantPosts_sorted_filtered_truncated (fun s => s) "zzzz"
    [Post.mk 1 "zzzz" "" "" "" ""] 5
  have hc0 : tfidfComponent [["zzzz"], ["zzzz"]] ["zzzz"] "zzzz" < 0 := by
    rw [tfidfComponent, if_pos (show ("zzzz" : String) ∈ ["zzzz"] by decide)]
    have h1 : (["zzzz"] : List String).count "zzzz" = 1 := rfl
    have h2 : (["zzzz"] : List String).length = 1 := rfl
    have h3 : docFreqCount [["zzzz"], ["zzzz"]] "zzzz" = 2 := rfl
    have h4 : ([["zzzz"], ["zzzz"]] : List (List String)).length = 2 := rfl
    rw [idfValue, h1, h2, h3, h4]
    have hlog : Real.log ((2 : ℕ) / (1 + (2 : ℕ)) : ℝ) < 0 := by
      push_cast
      exact Real.log_neg (by norm_num) (by norm_num)
    push_cast at hlog ⊢
    nlinarith [hlog]
  have hne0 : tfidfComponent [["zzzz"], ["zzzz"]] ["zzzz"] "zzzz" ≠ 0 := ne_of_lt hc0
  set c := tfidfComponent [["zzzz"], ["zzzz"]] ["zzzz"] "zzzz" with hcdef
  have hsq : sumSq [c] = c * c := by simp [sumSq]
  have hsqne : sumSq [c] ≠ 0 := by
    rw [hsq]
    exact mul_ne_zero hne0 hne0
  have hcval : cosineSimilarity [c] [c] = 1 := by
    rw [cosineSimilarity, if_neg (by push_neg; exact ⟨hsqne, hsqne⟩)]
    rw [show sumDot [c] [c] = c * c from by simp [sumDot], hsq]
    rw [Real.mul_self_sqrt (mul_self_nonneg c)]
    exact div_self (mul_ne_zero hne0 hne0)
  have e1 : rankItems (fun s => s) "zzzz" [Post.mk 1 "zzzz" "" "" "" ""] 5 =
      (List.filter (fun item => decide ((0.01 : ℝ) < item.similarity))
        [RankedItem.mk 0 (cosineSimilarity [c] [c])
          (Post.mk 1 "zzzz" "" "" "" "")]).take 5 := rfl
  have e2 : rankItems (fun s => s) "zzzz" [Post.mk 1 "zzzz" "" "" "" ""] 5 =
      [RankedItem.mk 0 (cosineSimilarity [c] [c]) (Post.mk 1 "zzzz" "" "" "" "")] := by
    rw [e1]
    rw [List.filter_cons_of_pos (by
      refine decide_eq_true ?_
      show (0.01 : ℝ) < cosineSimilarity [c] [c]
      rw [hcval]
      norm_num)]
    rfl
  constructor
  · have hmem : RankedItem.mk 0 (cosineSimilarity [c] [c])
        (Post.mk 1 "zzzz" "" "" "" "") ∈
        rankItems (fun s => s) "zzzz" [Post.mk 1 "zzzz" "" "" "" ""] 5 := by
      rw [e2]
      exact List.mem_singleton_self _
    exact hall.2.1 _ hmem
  · exact hall.2.2.2.2.2

/-- Witness for C10: a post with empty title and content scores `0`
against the query `"zzz"`, ranking returns nothing, and the negative
response is returned and stored in the cache under the raw question. -/
theorem processQuery_negative_result_cached_witness :
    (processQuery (fun s => s) id [] 0 "zzz"
        (.ok [Post.mk 1 "" "" "" "" ""]) .fetchFail).response =
      { answer := noInfoAnswer, sources := [] } ∧
    cacheGet (processQuery (fun s => s) id [] 0 "zzz"
        (.ok [Post.mk 1 "" "" "" "" ""]) .fetchFail).cache "zzz" =
      some { response := { answer := noInfoAnswer, sources := [] }, timestamp := 0 } := by
  have hz : cosineSimilarity [tfidfComponent [[], ["zzz"]] ["zzz"] "zzz"] [(0 : ℝ)] = 0 := by
    rw [cosineSimilarity, if_pos (Or.inr (by simp [sumSq]))]
  have e1 : rankItems (fun s => s) "zzz" [Post.mk 1 "" "" "" "" ""] 5 =
      (List.filter (fun item => decide ((0.01 : ℝ) < item.similarity))
        [RankedItem.mk 0
          (cosineSimilarity [tfidfComponent [[], ["zzz"]] ["zzz"] "zzz"] [(0 : ℝ)])
          (Post.mk 1 "" "" "" "" "")]).take 5 := rfl
  have hpredf : ¬((fun item => decide ((0.01 : ℝ) < item.similarity))
      (RankedItem.mk 0
        (cosineSimilarity [tfidfComponent [[], ["zzz"]] ["zzz"] "zzz"] [(0 : ℝ)])
        (Post.mk 1 "" "" "" "" "")) = true) := by
    show ¬(decide ((0.01 : ℝ) <
      cosineSimilarity [tfidfComponent [[], ["zzz"]] ["zzz"] "zzz"] [(0 : ℝ)]) = true)
    rw [hz, decide_eq_true_eq]
    norm_num
  have e2 : rankItems (fun s => s) "zzz" [Post.mk 1 "" "" "" "" ""] 5 = [] := by
    rw [e1]
    rw [List.filter_cons_of_neg]
    · rfl
    · exact hpredf
  have hrank : rankRelevantPosts (fun s => s) "zzz" [Post.mk 1 "" "" "" "" ""] 5 = [] := by
    rw [rankRelevantPosts, e2]
    rfl
  have h := processQuery_negative_result_cached (fun s => s) id [] 0 "zzz"
    (.ok [Post.mk 1 "" "" "" "" ""]) .fetchFail [Post.mk 1 "" "" "" "" ""]
    rfl (by decide) rfl (by simp) hrank
  exact ⟨h.1, h.2.1⟩

end RAGChatSystem
